import Mathlib

/-!
# Verification of the DBTChain gov-sdk client

Shallow embedding of the pure/deterministic parts of the `@dbtchain/gov-sdk`
TypeScript SDK, and proofs about them.

Source layout:
* `src/agency.ts` — `submitProposal`, `reviseProposal`, … (event-extraction loops)
* `src/dbtc.ts` — `addDepartment`, `addRegularDepartment`, … (event-extraction loops)
* `src/department.ts` — `addAgency`, read helpers
* `src/config.ts` — `configure`, module-level `_config` / `_provider`
* `src/utils.ts` — `stringToBytes32`, `bytes32ToString`, `waitForTransaction`,
  `prepareProposalData`
* `src/types.ts`, `src/index.ts` — data shapes and re-exports

JavaScript values that the extraction loops manipulate (strings, bigints, and
`undefined` from a missing property) are modelled by `JsValue`; JS truthiness
drives the `a || b` fallback in `parsed.args.deptContract || parsed.args[1]`.
Errors thrown by the SDK or by the `ethers` helpers it calls are modelled with
`Except JsError`.
-/

/-- Errors thrown by the SDK or by the `ethers` helpers it calls.  Each
constructor stands for one `throw new Error(...)` site; the message texts are
not modelled. -/
inductive JsError where
  /-- `utils.ts` `stringToBytes32`: string longer than 31 characters. -/
  | stringTooLong : JsError
  /-- `ethers.encodeBytes32String`: UTF-8 encoding longer than 31 bytes. -/
  | bytes32TooManyBytes : JsError
  /-- `ethers.decodeBytes32String`: input is not exactly 32 bytes. -/
  | invalidBytes32Length : JsError
  /-- `ethers.decodeBytes32String`: byte 31 is not a null terminator. -/
  | missingNullTerminator : JsError
  /-- `ethers.toUtf8String`: the bytes are not valid UTF-8. -/
  | invalidUtf8 : JsError
  /-- `utils.ts` `waitForTransaction`: `tx.wait()` returned no receipt. -/
  | noReceipt : JsError
  /-- `config.ts` `configure`: chainMode is neither testnet nor mainnet. -/
  | invalidChainMode : JsError
  /-- `config.ts` `configure`: apiKey is missing or empty. -/
  | missingApiKey : JsError
  /-- The JS builtin `BigInt(x)` in `prepareProposalData`: SyntaxError on a
  string that is not an integer literal, RangeError on a non-integral
  number. -/
  | invalidBigInt : JsError
deriving DecidableEq, Repr

/-- A JavaScript value as seen by the event-extraction loops: a string
(addresses), a bigint (token ids), or `undefined` (missing property). -/
inductive JsValue where
  | str : String → JsValue
  | num : Int → JsValue
  | undefined : JsValue
deriving DecidableEq, Repr

/-- JS truthiness restricted to `JsValue`: empty string, `0n` and `undefined`
are falsy. -/
def JsValue.truthy : JsValue → Bool
  | .str s => s ≠ ""
  | .num n => n ≠ 0
  | .undefined => false

/-- The JS `a || b` operator on `JsValue`. -/
def jsOr (a b : JsValue) : JsValue :=
  if a.truthy then a else b

/-- A raw receipt log entry: `{ topics, data }` as passed to
`contract.interface.parseLog`. -/
structure Log where
  topics : List String
  data : String
deriving DecidableEq, Repr

/-- The result of a successful `parseLog`: the event name together with its
decoded arguments, addressable both by name (`parsed.args.tokenId`) and by
position (`parsed.args[1]`). -/
structure ParsedLog where
  name : String
  /-- Named argument properties of the ethers `Result`. -/
  args : List (String × JsValue)
  /-- Positional entries of the ethers `Result`. -/
  argsPos : List JsValue
deriving DecidableEq, Repr

/-- `parsed.args.k`: named property access, `undefined` when absent. -/
def ParsedLog.getNamed (p : ParsedLog) (k : String) : JsValue :=
  match p.args.lookup k with
  | some v => v
  | none => .undefined

/-- `parsed.args[i]`: positional access, `undefined` when out of range. -/
def ParsedLog.getPos (p : ParsedLog) (i : Nat) : JsValue :=
  (p.argsPos.get? i).getD .undefined

/-- A contract interface, as used by the loops: `parseLog` either yields a
decoded event (`some`) or fails (`none` — covering both a `null` return and a
thrown exception, which every call site catches and treats identically by
moving on to the next log entry). -/
def Interface : Type := Log → Option ParsedLog

/-- `true` iff the interface decodes this log entry to an event with the
target name (the condition under which a loop body assigns and breaks). -/
def matchesEvent (contract : Interface) (target : String) (log : Log) : Bool :=
  match contract log with
  | some parsed => parsed.name == target
  | none => false

/-- The event-extraction loop of `submitProposal` (`agency.ts`):
`let tokenId = BigInt(0)`, then scan the logs, and on the first entry that
parses to `ProposalSubmitted` take `parsed.args.tokenId` and break; parse
failures are caught and skipped. -/
def submitProposal.extractTokenId (contract : Interface) : List Log → JsValue
  | [] => .num 0
  | log :: rest =>
    match contract log with
    | some parsed =>
      if parsed.name = "ProposalSubmitted" then parsed.getNamed "tokenId"
      else submitProposal.extractTokenId contract rest
    | none => submitProposal.extractTokenId contract rest

/-- The event-extraction loop of `addDepartment` (`dbtc.ts`):
`let departmentAddress = ''`, then scan the logs, and on the first entry that
parses to `DepartmentAdded` take `parsed.args.deptContract || parsed.args[1]`
and break. -/
def addDepartment.extractDepartmentAddress (contract : Interface) : List Log → JsValue
  | [] => .str ""
  | log :: rest =>
    match contract log with
    | some parsed =>
      if parsed.name = "DepartmentAdded" then
        jsOr (parsed.getNamed "deptContract") (parsed.getPos 1)
      else addDepartment.extractDepartmentAddress contract rest
    | none => addDepartment.extractDepartmentAddress contract rest

/-- The event-extraction loop of `addRegularDepartment` (`dbtc.ts`) — the same
three lines repeated verbatim at that call site. -/
def addRegularDepartment.extractDepartmentAddress (contract : Interface) : List Log → JsValue
  | [] => .str ""
  | log :: rest =>
    match contract log with
    | some parsed =>
      if parsed.name = "DepartmentAdded" then
        jsOr (parsed.getNamed "deptContract") (parsed.getPos 1)
      else addRegularDepartment.extractDepartmentAddress contract rest
    | none => addRegularDepartment.extractDepartmentAddress contract rest

/-- The event-extraction loop of `addAgency` (`department.ts`):
`let agencyAddress = ''`, scan for `AgencyAdded`, take
`parsed.args.agencyContract || parsed.args[1]`. -/
def addAgency.extractAgencyAddress (contract : Interface) : List Log → JsValue
  | [] => .str ""
  | log :: rest =>
    match contract log with
    | some parsed =>
      if parsed.name = "AgencyAdded" then
        jsOr (parsed.getNamed "agencyContract") (parsed.getPos 1)
      else addAgency.extractAgencyAddress contract rest
    | none => addAgency.extractAgencyAddress contract rest

/-- The shared shape of all these loops, as a verification artifact: scan the
logs, and on the first entry parsing to `target` return `get parsed`,
otherwise fall through to `init`. -/
def extractLoop (contract : Interface) (target : String) (get : ParsedLog → JsValue)
    (init : JsValue) : List Log → JsValue
  | [] => init
  | log :: rest =>
    match contract log with
    | some parsed =>
      if parsed.name = target then get parsed
      else extractLoop contract target get init rest
    | none => extractLoop contract target get init rest

/-! ## Concrete data for witnesses

A small concrete interface and log entries, used only to instantiate the
universally quantified claim theorems. -/

/-- A concrete contract interface: four recognised topic lists, everything
else fails to decode. -/
def demoInterface : Interface := fun log =>
  match log.topics with
  | ["0xsub"] =>
    some { name := "ProposalSubmitted", args := [("tokenId", .num 7)],
           argsPos := [.str "0xAgency", .num 7] }
  | ["0xsubzero"] =>
    some { name := "ProposalSubmitted", args := [("tokenId", .num 0)],
           argsPos := [.str "0xAgency", .num 0] }
  | ["0xdept"] =>
    some { name := "DepartmentAdded", args := [("deptContract", .str "0xD1")],
           argsPos := [.str "01", .str "0xD1"] }
  | ["0xagency"] =>
    some { name := "AgencyAdded", args := [("agencyContract", .str "0xA1")],
           argsPos := [.str "002", .str "0xA1"] }
  | ["0xother"] =>
    some { name := "Transfer", args := [], argsPos := [] }
  | _ => none

/-- Log entry that `demoInterface` decodes to `ProposalSubmitted` (tokenId 7). -/
def demoLogSub : Log := { topics := ["0xsub"], data := "" }

/-- Log entry that `demoInterface` decodes to `ProposalSubmitted` (tokenId 0). -/
def demoLogSubZero : Log := { topics := ["0xsubzero"], data := "" }

/-- Log entry that `demoInterface` decodes to `DepartmentAdded`. -/
def demoLogDept : Log := { topics := ["0xdept"], data := "" }

/-- Log entry that `demoInterface` decodes to `AgencyAdded`. -/
def demoLogAgency : Log := { topics := ["0xagency"], data := "" }

/-- Log entry that `demoInterface` decodes to an unrelated event. -/
def demoLogOther : Log := { topics := ["0xother"], data := "" }

/-- Log entry on which `demoInterface` fails to decode. -/
def demoLogJunk : Log := { topics := ["0xjunk"], data := "" }

/-! ## waitForTransaction (`utils.ts`) -/

/-- A mined transaction receipt, with the fields `waitForTransaction` reads.
Ethers types `status` as number-or-null, hence `Option Nat`. -/
structure Receipt where
  hash : String
  blockNumber : Nat
  gasUsed : Nat
  status : Option Nat
  logs : List Log
deriving DecidableEq, Repr

/-- The record `waitForTransaction` returns (`TransactionResult` in
`types.ts`, plus the `logs` field the implementation adds). -/
structure TransactionResult where
  txHash : String
  blockNumber : Nat
  gasUsed : Nat
  success : Bool
  logs : List Log
deriving DecidableEq, Repr

/-- `utils.ts` `waitForTransaction`: `tx.wait()` is modelled by its outcome,
an optional receipt.  No receipt throws; otherwise the receipt fields are
copied into the result and `success` is `receipt.status === 1`. -/
def waitForTransaction (txWait : Option Receipt) : Except JsError TransactionResult :=
  match txWait with
  | none => .error .noReceipt
  | some receipt =>
    .ok { txHash := receipt.hash
          blockNumber := receipt.blockNumber
          gasUsed := receipt.gasUsed
          success := receipt.status == some 1
          logs := receipt.logs }

/-- A concrete mined receipt used in the C5 witness. -/
def demoReceipt : Receipt :=
  { hash := "0xT", blockNumber := 5, gasUsed := 21000,
    status := some 1, logs := [demoLogSub] }

/-! ## configure (`config.ts`) -/

/-- The argument of `configure` (`SDKConfig` in `config.ts`): `chainMode` is a
plain string as far as the runtime validation is concerned. -/
structure SDKConfigInput where
  chainMode : String
  apiKey : String
  privateKey : Option String
deriving DecidableEq, Repr

/-- The cached `ethers.JsonRpcProvider`, modelled by its constructor
arguments. -/
structure JsonRpcProvider where
  rpcUrl : String
  chainId : Nat
deriving DecidableEq, Repr

/-- The module-level mutable state of `config.ts`: `_config` and
`_provider`, both initially null. -/
structure SDKState where
  config : Option SDKConfigInput
  provider : Option JsonRpcProvider
deriving DecidableEq, Repr

/-- `config.ts` `configure`, with the module state passed explicitly: validate
`chainMode` (`!config.chainMode || !['testnet','mainnet'].includes(...)`) and
`apiKey` (`!config.apiKey`), throwing without touching the state; on success
store the three fields and reset the cached provider to null. -/
def configure (c : SDKConfigInput) (st : SDKState) : SDKState × Except JsError Unit :=
  if c.chainMode = "" ∨ c.chainMode ∉ ["testnet", "mainnet"] then
    (st, .error .invalidChainMode)
  else if c.apiKey = "" then
    (st, .error .missingApiKey)
  else
    ({ config := some { chainMode := c.chainMode, apiKey := c.apiKey,
                        privateKey := c.privateKey }
       provider := none },
     .ok ())

/-! ## The index module exports (`index.ts`)

`index.ts` re-exports the configuration module, the type helpers, the agency,
department and DBTC wrappers, and the two bytes32 conversions.  Each exported
function is classified by what its body does:

* state-changing call — the body obtains a signer, calls a contract method and
  runs `waitForTransaction` on the response (`submitProposal`,
  `addDepartment`, `addAgency`, …);
* read-only query — the body obtains a provider-backed contract and awaits a
  view call (`getAgencyInfo`, `getCurrentPhase`, …);
* local configuration — the body only reads or mutates the module-level
  `_config` / `_provider` / `CONTRACT_ADDRESSES` state, or environment
  variables; it touches no contract (`configure`, `getConfig`, `getChainMode`,
  `isTestnet`, `isMainnet`, `setContractAddresses`);
* pure utility — the body is a pure conversion or name lookup
  (`stringToBytes32`, `bytes32ToString`, `getPhaseName`, `getStatusName`). -/

/-- Classification of an exported function of the SDK by what its body does. -/
inductive ExportKind where
  /-- Builds and submits a state-changing contract call and waits for it. -/
  | stateChangingCall : ExportKind
  /-- Performs a read-only query against a contract. -/
  | readOnlyQuery : ExportKind
  /-- Reads or mutates only the local SDK configuration state. -/
  | localConfiguration : ExportKind
  /-- A pure conversion or lookup, touching neither chain nor config. -/
  | pureUtility : ExportKind
deriving DecidableEq, Repr, BEq

/-- Every function exported by `index.ts`, with its classification read off
its body in `config.ts`, `types.ts`, `agency.ts`, `department.ts`, `dbtc.ts`
and `utils.ts`. -/
def sdkExports : List (String × ExportKind) :=
  [("configure", .localConfiguration),
   ("getConfig", .localConfiguration),
   ("getChainMode", .localConfiguration),
   ("isTestnet", .localConfiguration),
   ("isMainnet", .localConfiguration),
   ("setContractAddresses", .localConfiguration),
   ("getPhaseName", .pureUtility),
   ("getStatusName", .pureUtility),
   ("submitProposal", .stateChangingCall),
   ("reviseProposal", .stateChangingCall),
   ("amendProposal", .stateChangingCall),
   ("submitSeparateGAB", .stateChangingCall),
   ("submitJointGAB", .stateChangingCall),
   ("addDocumentManager", .stateChangingCall),
   ("removeDocumentManager", .stateChangingCall),
   ("transferAgencyOwnership", .stateChangingCall),
   ("getAgencyInfo", .readOnlyQuery),
   ("isDocumentManager", .readOnlyQuery),
   ("getDocumentManagers", .readOnlyQuery),
   ("addAgency", .stateChangingCall),
   ("setHouseAndSenate", .stateChangingCall),
   ("getDepartmentInfo", .readOnlyQuery),
   ("getAgency", .readOnlyQuery),
   ("isAgencyRegistered", .readOnlyQuery),
   ("getAgencyCodes", .readOnlyQuery),
   ("getMainAgency", .readOnlyQuery),
   ("getHouseAgency", .readOnlyQuery),
   ("getSenateAgency", .readOnlyQuery),
   ("getDepartmentOwner", .readOnlyQuery),
   ("addDepartment", .stateChangingCall),
   ("addRegularDepartment", .stateChangingCall),
   ("assignPhaseResponsibility", .stateChangingCall),
   ("startBudgetCall", .stateChangingCall),
   ("advancePhase", .stateChangingCall),
   ("getCurrentPhase", .readOnlyQuery),
   ("getCurrentFiscalYear", .readOnlyQuery),
   ("getDepartment", .readOnlyQuery),
   ("isDepartmentRegistered", .readOnlyQuery),
   ("getDepartmentCodes", .readOnlyQuery),
   ("getDepartmentCount", .readOnlyQuery),
   ("getPhaseResponsibleDepartment", .readOnlyQuery),
   ("getBudgetProposalContract", .readOnlyQuery),
   ("getDBTCOwner", .readOnlyQuery),
   ("stringToBytes32", .pureUtility),
   ("bytes32ToString", .pureUtility)]

/-- The exported helpers that neither submit a contract call nor run a
contract query. -/
def nonContractExports : List String :=
  ["configure", "getConfig", "getChainMode", "isTestnet", "isMainnet",
   "setContractAddresses", "getPhaseName", "getStatusName",
   "stringToBytes32", "bytes32ToString"]

/-! ## bytes32 string conversion (`utils.ts` and the ethers helpers it calls)

`stringToBytes32` guards on `str.length > 31` and then delegates to
`ethers.encodeBytes32String`; `bytes32ToString` is
`ethers.decodeBytes32String`.  The ethers helpers are not part of this
repository, so they are modelled here from their documented behaviour:
`encodeBytes32String` UTF-8 encodes the string, requires at most 31 bytes and
zero-pads on the right to 32 bytes; `decodeBytes32String` requires exactly 32
bytes with a null terminator in the last byte, strips trailing zeros from the
first 31 bytes and UTF-8 decodes the remainder.  JS strings are modelled as
lists of Unicode scalar values (`List Char`); bytes as `Nat` below 256. -/

/-- The UTF-8 encoding of one Unicode scalar value. -/
def utf8EncodeCodePoint (v : Nat) : List Nat :=
  if v < 0x80 then [v]
  else if v < 0x800 then
    [0xC0 + v / 64, 0x80 + v % 64]
  else if v < 0x10000 then
    [0xE0 + v / 4096, 0x80 + v / 64 % 64, 0x80 + v % 64]
  else
    [0xF0 + v / 262144, 0x80 + v / 4096 % 64, 0x80 + v / 64 % 64, 0x80 + v % 64]

/-- `ethers.toUtf8Bytes`: the UTF-8 encoding of a string. -/
def utf8Bytes : List Char → List Nat
  | [] => []
  | c :: cs => utf8EncodeCodePoint c.toNat ++ utf8Bytes cs

/-- A UTF-8 continuation byte: `0x80 ≤ b < 0xC0`. -/
def utf8ContinuationByte (b : Nat) : Bool :=
  decide (0x80 ≤ b) && decide (b < 0xC0)

/-- The code point assembled from a two-byte UTF-8 sequence. -/
def utf8Val2 (b b1 : Nat) : Nat :=
  (b - 0xC0) * 64 + (b1 - 0x80)

/-- The code point assembled from a three-byte UTF-8 sequence. -/
def utf8Val3 (b b1 b2 : Nat) : Nat :=
  (b - 0xE0) * 4096 + (b1 - 0x80) * 64 + (b2 - 0x80)

/-- The code point assembled from a four-byte UTF-8 sequence. -/
def utf8Val4 (b b1 b2 b3 : Nat) : Nat :=
  (b - 0xF0) * 262144 + (b1 - 0x80) * 4096 + (b2 - 0x80) * 64 + (b3 - 0x80)

/-- Validity of a two-byte sequence: a continuation byte and no overlong
encoding. -/
def utf8Ok2 (b b1 : Nat) : Bool :=
  utf8ContinuationByte b1 && decide (0x80 ≤ utf8Val2 b b1)

/-- Validity of a three-byte sequence: continuation bytes, no overlong
encoding, and no surrogate. -/
def utf8Ok3 (b b1 b2 : Nat) : Bool :=
  utf8ContinuationByte b1 && utf8ContinuationByte b2 &&
    decide (0x800 ≤ utf8Val3 b b1 b2) &&
    !(decide (0xD800 ≤ utf8Val3 b b1 b2) && decide (utf8Val3 b b1 b2 < 0xE000))

/-- Validity of a four-byte sequence: continuation bytes, no overlong
encoding, and in Unicode range. -/
def utf8Ok4 (b b1 b2 b3 : Nat) : Bool :=
  utf8ContinuationByte b1 && utf8ContinuationByte b2 && utf8ContinuationByte b3 &&
    decide (0x10000 ≤ utf8Val4 b b1 b2 b3) && decide (utf8Val4 b b1 b2 b3 < 0x110000)

/-- Modelled from `ethers.toUtf8String`: consume one UTF-8 encoded code point
from byte `b` followed by `rest`, returning the code point and the remaining
bytes, or `none` on malformed input (stray or missing continuation bytes,
overlong forms, surrogates, out-of-range values). -/
def utf8DecodeOne (b : Nat) (rest : List Nat) : Option (Nat × List Nat) :=
  if b < 0x80 then some (b, rest)
  else if b < 0xC0 then none
  else if b < 0xE0 then
    match rest with
    | b1 :: rest1 => if utf8Ok2 b b1 then some (utf8Val2 b b1, rest1) else none
    | [] => none
  else if b < 0xF0 then
    match rest with
    | b1 :: b2 :: rest2 => if utf8Ok3 b b1 b2 then some (utf8Val3 b b1 b2, rest2) else none
    | _ => none
  else if b < 0xF8 then
    match rest with
    | b1 :: b2 :: b3 :: rest3 =>
      if utf8Ok4 b b1 b2 b3 then some (utf8Val4 b b1 b2 b3, rest3) else none
    | _ => none
  else none

/-- The decoding loop of `ethers.toUtf8String`, with explicit fuel (one unit
per consumed code point; `utf8DecodeBytes` supplies enough). -/
def utf8DecodeLoop : Nat → List Nat → Option (List Char)
  | _, [] => some []
  | 0, _ :: _ => none
  | fuel + 1, b :: rest =>
    match utf8DecodeOne b rest with
    | some (v, rest1) => Option.map (fun cs => Char.ofNat v :: cs) (utf8DecodeLoop fuel rest1)
    | none => none

/-- Modelled from `ethers.toUtf8String`: decode UTF-8 bytes back to a string,
`none` standing for the error thrown on malformed input. -/
def utf8DecodeBytes (l : List Nat) : Option (List Char) :=
  utf8DecodeLoop l.length l

/-- Strip trailing zero bytes; this is the scan
`let length = 31; while (data[length-1] === 0) length--` of
`ethers.decodeBytes32String`, applied to the first 31 bytes. -/
def dropTrailingZeros (l : List Nat) : List Nat :=
  (l.reverse.dropWhile (· == 0)).reverse

/-- Modelled from `ethers.encodeBytes32String`: UTF-8 encode, require at most
31 bytes, zero-pad on the right to 32 bytes. -/
def encodeBytes32String (s : List Char) : Except JsError (List Nat) :=
  if 31 < (utf8Bytes s).length then .error .bytes32TooManyBytes
  else .ok (utf8Bytes s ++ List.replicate (32 - (utf8Bytes s).length) 0)

/-- Modelled from `ethers.decodeBytes32String`: require exactly 32 bytes
ending in a null terminator, strip the trailing zeros of the first 31 bytes,
and UTF-8 decode what is left. -/
def decodeBytes32String (data : List Nat) : Except JsError (List Char) :=
  if data.length ≠ 32 then .error .invalidBytes32Length
  else if data.get? 31 ≠ some 0 then .error .missingNullTerminator
  else
    match utf8DecodeBytes (dropTrailingZeros (data.take 31)) with
    | some s => .ok s
    | none => .error .invalidUtf8

/-- `utils.ts` `stringToBytes32`: throw on strings longer than 31 characters,
otherwise `ethers.encodeBytes32String`. -/
def stringToBytes32 (s : List Char) : Except JsError (List Nat) :=
  if 31 < s.length then .error .stringTooLong
  else encodeBytes32String s

/-- `utils.ts` `bytes32ToString`: plain `ethers.decodeBytes32String`. -/
def bytes32ToString (data : List Nat) : Except JsError (List Char) :=
  decodeBytes32String data

/-! ## prepareProposalData (`utils.ts`) -/

/-- `ethers.ZeroHash` as 32 zero bytes. -/
def ZeroHash : List Nat := List.replicate 32 0

/-- The `amount` field of `ProposalData` (`types.ts`):
`bigint | string | number`.  JS numbers are modelled by whether `BigInt` can
convert them: `numInt` is an integral number (carrying its value), and
`numNonInt` stands for any non-integral or non-finite number (such as `1.5`
or `NaN`), whose fractional value plays no further role because `BigInt`
throws on it. -/
inductive JsAmount where
  /-- A JS bigint: `BigInt` is the identity on it. -/
  | big : Int → JsAmount
  /-- A JS string: converted by the `StringToBigInt` grammar or rejected. -/
  | str : String → JsAmount
  /-- An integral JS number. -/
  | numInt : Int → JsAmount
  /-- A non-integral or non-finite JS number: `BigInt` throws a RangeError. -/
  | numNonInt : JsAmount
deriving DecidableEq, Repr

/-- The whitespace and line terminators that `StringToBigInt` trims. -/
def jsWhitespaceChar (c : Char) : Bool :=
  c.toNat == 0x09 || c.toNat == 0x0A || c.toNat == 0x0B || c.toNat == 0x0C ||
    c.toNat == 0x0D || c.toNat == 0x20 || c.toNat == 0xA0 || c.toNat == 0x1680 ||
    (0x2000 ≤ c.toNat && c.toNat ≤ 0x200A) || c.toNat == 0x2028 ||
    c.toNat == 0x2029 || c.toNat == 0x202F || c.toNat == 0x205F ||
    c.toNat == 0x3000 || c.toNat == 0xFEFF

/-- Value of a decimal digit, `none` on any other character. -/
def decDigitVal (c : Char) : Option Nat :=
  if 48 ≤ c.toNat ∧ c.toNat ≤ 57 then some (c.toNat - 48) else none

/-- Value of a hexadecimal digit, `none` on any other character. -/
def hexDigitVal (c : Char) : Option Nat :=
  if 48 ≤ c.toNat ∧ c.toNat ≤ 57 then some (c.toNat - 48)
  else if 65 ≤ c.toNat ∧ c.toNat ≤ 70 then some (c.toNat - 55)
  else if 97 ≤ c.toNat ∧ c.toNat ≤ 102 then some (c.toNat - 87)
  else none

/-- Value of an octal digit, `none` on any other character. -/
def octDigitVal (c : Char) : Option Nat :=
  if 48 ≤ c.toNat ∧ c.toNat ≤ 55 then some (c.toNat - 48) else none

/-- Value of a binary digit, `none` on any other character. -/
def binDigitVal (c : Char) : Option Nat :=
  if 48 ≤ c.toNat ∧ c.toNat ≤ 49 then some (c.toNat - 48) else none

/-- Accumulate the remaining digits of an integer literal; any non-digit
character rejects the whole literal. -/
def parseDigitsAux (digitVal : Char → Option Nat) (base acc : Nat) :
    List Char → Option Nat
  | [] => some acc
  | c :: cs =>
    match digitVal c with
    | some d => parseDigitsAux digitVal base (acc * base + d) cs
    | none => none

/-- Parse a nonempty run of digits as an integer in the given base; empty
input or any non-digit character rejects. -/
def parseDigits (digitVal : Char → Option Nat) (base : Nat) :
    List Char → Option Nat
  | [] => none
  | c :: cs =>
    match digitVal c with
    | some d => parseDigitsAux digitVal base d cs
    | none => none

/-- Modelled from the ECMAScript `StringToBigInt` operation used by
`BigInt(string)`: trim JS whitespace, accept the empty string as `0`, a
`0x`/`0o`/`0b` prefixed unsigned literal, or an optionally signed decimal
literal; everything else (decimal points, exponents, stray characters) is
rejected, which `BigInt` reports as a SyntaxError. -/
def stringToBigInt (s : String) : Option Int :=
  match (((s.toList.dropWhile fun c => jsWhitespaceChar c).reverse.dropWhile
      fun c => jsWhitespaceChar c).reverse : List Char) with
  | [] => some 0
  | c :: cs =>
    if c = '+' then Option.map (fun n => (n : Int)) (parseDigits decDigitVal 10 cs)
    else if c = '-' then Option.map (fun n => -(n : Int)) (parseDigits decDigitVal 10 cs)
    else if c = '0' then
      match cs with
      | [] => some 0
      | x :: ds =>
        if x = 'x' ∨ x = 'X' then
          Option.map (fun n => (n : Int)) (parseDigits hexDigitVal 16 ds)
        else if x = 'o' ∨ x = 'O' then
          Option.map (fun n => (n : Int)) (parseDigits octDigitVal 8 ds)
        else if x = 'b' ∨ x = 'B' then
          Option.map (fun n => (n : Int)) (parseDigits binDigitVal 2 ds)
        else
          Option.map (fun n => (n : Int)) (parseDigits decDigitVal 10 (c :: cs))
    else Option.map (fun n => (n : Int)) (parseDigits decDigitVal 10 (c :: cs))

/-- Modelled from the JS builtin `BigInt(x)` at the types it meets in
`prepareProposalData`: identity on bigints, `StringToBigInt` on strings
(SyntaxError on anything that is not an integer literal), and the value of an
integral number (RangeError on non-integral numbers).  `none` stands for the
thrown error. -/
def jsBigInt : JsAmount → Option Int
  | .big n => some n
  | .str s => stringToBigInt s
  | .numInt n => some n
  | .numNonInt => none

/-- The record `prepareProposalData` builds for the contract call (the
`OnChainProposalData` shape of `types.ts`).  `amount` holds the result of the
`BigInt(data.amount)` conversion. -/
structure PreparedProposalData where
  fiscalYear : Nat
  departmentCode : List Nat
  agencyCode : List Nat
  prexcFpapId : List Nat
  uacsObjCode : List Nat
  amount : Int
deriving DecidableEq, Repr

/-- `utils.ts` `prepareProposalData`: zero out the contract-enriched fields,
pack the two string fields through `stringToBytes32` and convert the amount
with `BigInt`, in the evaluation order of the object literal (`prexcFpapId`,
then `uacsObjCode`, then `amount`).  In `agency.ts` `submitProposal` runs
this before `contract.submitProposal`, so an error here is thrown before any
contract call. -/
def prepareProposalData (prexcFpapId uacsObjCode : List Char) (amount : JsAmount) :
    Except JsError PreparedProposalData :=
  match stringToBytes32 prexcFpapId with
  | .error e => .error e
  | .ok bp =>
    match stringToBytes32 uacsObjCode with
    | .error e => .error e
    | .ok bu =>
      match jsBigInt amount with
      | none => .error .invalidBigInt
      | some av =>
        .ok { fiscalYear := 0, departmentCode := ZeroHash, agencyCode := ZeroHash,
              prexcFpapId := bp, uacsObjCode := bu, amount := av }

/-! ## Theorems -/

theorem submitProposal_extractTokenId_eq_loop (contract : Interface) (logs : List Log) :
    submitProposal.extractTokenId contract logs =
      extractLoop contract "ProposalSubmitted" (fun p => p.getNamed "tokenId") (.num 0) logs := by
  induction logs with
  | nil => rfl
  | cons log rest ih =>
    simp only [submitProposal.extractTokenId, extractLoop]
    cases contract log with
    | none => exact ih
    | some parsed =>
      by_cases h : parsed.name = "ProposalSubmitted" <;> simp [h, ih]

theorem addDepartment_extract_eq_loop (contract : Interface) (logs : List Log) :
    addDepartment.extractDepartmentAddress contract logs =
      extractLoop contract "DepartmentAdded"
        (fun p => jsOr (p.getNamed "deptContract") (p.getPos 1)) (.str "") logs := by
  induction logs with
  | nil => rfl
  | cons log rest ih =>
    simp only [addDepartment.extractDepartmentAddress, extractLoop]
    cases contract log with
    | none => exact ih
    | some parsed =>
      by_cases h : parsed.name = "DepartmentAdded" <;> simp [h, ih]

theorem addRegularDepartment_extract_eq_loop (contract : Interface) (logs : List Log) :
    addRegularDepartment.extractDepartmentAddress contract logs =
      extractLoop contract "DepartmentAdded"
        (fun p => jsOr (p.getNamed "deptContract") (p.getPos 1)) (.str "") logs := by
  induction logs with
  | nil => rfl
  | cons log rest ih =>
    simp only [addRegularDepartment.extractDepartmentAddress, extractLoop]
    cases contract log with
    | none => exact ih
    | some parsed =>
      by_cases h : parsed.name = "DepartmentAdded" <;> simp [h, ih]

theorem addAgency_extract_eq_loop (contract : Interface) (logs : List Log) :
    addAgency.extractAgencyAddress contract logs =
      extractLoop contract "AgencyAdded"
        (fun p => jsOr (p.getNamed "agencyContract") (p.getPos 1)) (.str "") logs := by
  induction logs with
  | nil => rfl
  | cons log rest ih =>
    simp only [addAgency.extractAgencyAddress, extractLoop]
    cases contract log with
    | none => exact ih
    | some parsed =>
      by_cases h : parsed.name = "AgencyAdded" <;> simp [h, ih]

/-- First-match semantics of the generic loop: entries before the first
matching one are skipped, entries after it are never inspected. -/
theorem extractLoop_first_match (contract : Interface) (target : String)
    (get : ParsedLog → JsValue) (init : JsValue)
    (pre post : List Log) (log : Log) (parsed : ParsedLog)
    (hpre : ∀ l ∈ pre, matchesEvent contract target l = false)
    (hlog : contract log = some parsed) (hname : parsed.name = target) :
    extractLoop contract target get init (pre ++ log :: post) = get parsed := by
  induction pre with
  | nil =>
    simp only [List.nil_append, extractLoop, hlog, hname, if_pos]
  | cons l pre ih =>
    have hl := hpre l (List.mem_cons_self l pre)
    have hrest : ∀ l' ∈ pre, matchesEvent contract target l' = false := fun l' hl' =>
      hpre l' (List.mem_cons_of_mem l hl')
    simp only [List.cons_append, extractLoop]
    cases hc : contract l with
    | none => exact ih hrest
    | some p =>
      have : (p.name == target) = false := by
        simpa [matchesEvent, hc] using hl
      simp only [beq_eq_false_iff_ne, ne_eq] at this
      simp [this, ih hrest]

/-- Prepending entries that fail to decode does not change the loop result. -/
theorem extractLoop_undecodable_prefix (contract : Interface) (target : String)
    (get : ParsedLog → JsValue) (init : JsValue)
    (junk logs : List Log) (hjunk : ∀ l ∈ junk, contract l = none) :
    extractLoop contract target get init (junk ++ logs) =
      extractLoop contract target get init logs := by
  induction junk with
  | nil => simp
  | cons l junk ih =>
    have hl := hjunk l (List.mem_cons_self l junk)
    have hrest : ∀ l' ∈ junk, contract l' = none := fun l' hl' =>
      hjunk l' (List.mem_cons_of_mem l hl')
    simp only [List.cons_append, extractLoop, hl]
    exact ih hrest

/-- Inserting undecodable entries anywhere does not change the loop result. -/
theorem extractLoop_insert_undecodable (contract : Interface) (target : String)
    (get : ParsedLog → JsValue) (init : JsValue)
    (a junk b : List Log) (hjunk : ∀ l ∈ junk, contract l = none) :
    extractLoop contract target get init (a ++ junk ++ b) =
      extractLoop contract target get init (a ++ b) := by
  induction a with
  | nil => simpa using extractLoop_undecodable_prefix contract target get init junk b hjunk
  | cons l a ih =>
    simp only [List.cons_append, extractLoop]
    cases contract l with
    | none => exact ih
    | some parsed =>
      by_cases h : parsed.name = target <;> simp [h, ← List.append_assoc, ih]

/-- When no entry matches, the loop falls through to its initial value. -/
theorem extractLoop_no_match (contract : Interface) (target : String)
    (get : ParsedLog → JsValue) (init : JsValue)
    (logs : List Log) (h : ∀ l ∈ logs, matchesEvent contract target l = false) :
    extractLoop contract target get init logs = init := by
  induction logs with
  | nil => rfl
  | cons l logs ih =>
    have hl := h l (List.mem_cons_self l logs)
    have hrest : ∀ l' ∈ logs, matchesEvent contract target l' = false := fun l' hl' =>
      h l' (List.mem_cons_of_mem l hl')
    simp only [extractLoop]
    cases hc : contract l with
    | none => exact ih hrest
    | some p =>
      have : (p.name == target) = false := by
        simpa [matchesEvent, hc] using hl
      simp only [beq_eq_false_iff_ne, ne_eq] at this
      simp [this, ih hrest]

/-! ## Claim theorems: the event-extraction loops -/

/-- C1: for every list of receipt log entries and every contract interface,
the event-extraction loop returns the named argument of the first log entry
that the interface decodes to the target event name — `submitProposal` returns
`args.tokenId` of the first log decoding to ProposalSubmitted, `addDepartment`
returns `args.deptContract` (falling back to positional `args[1]`) of the
first log decoding to DepartmentAdded, `addAgency` returns
`args.agencyContract` (falling back to `args[1]`) of the first log decoding to
AgencyAdded — and entries after that first match have no effect on the
result. -/
theorem claim_C1_first_match_extraction
    (contract : Interface) (pre post : List Log) (log : Log) (parsed : ParsedLog)
    (hlog : contract log = some parsed) :
    (parsed.name = "ProposalSubmitted" →
      (∀ l ∈ pre, matchesEvent contract "ProposalSubmitted" l = false) →
      submitProposal.extractTokenId contract (pre ++ log :: post) =
        parsed.getNamed "tokenId") ∧
    (parsed.name = "DepartmentAdded" →
      (∀ l ∈ pre, matchesEvent contract "DepartmentAdded" l = false) →
      addDepartment.extractDepartmentAddress contract (pre ++ log :: post) =
        jsOr (parsed.getNamed "deptContract") (parsed.getPos 1)) ∧
    (parsed.name = "AgencyAdded" →
      (∀ l ∈ pre, matchesEvent contract "AgencyAdded" l = false) →
      addAgency.extractAgencyAddress contract (pre ++ log :: post) =
        jsOr (parsed.getNamed "agencyContract") (parsed.getPos 1)) := by
  refine ⟨fun hname hpre => ?_, fun hname hpre => ?_, fun hname hpre => ?_⟩
  · rw [submitProposal_extractTokenId_eq_loop]
    exact extractLoop_first_match contract _ _ _ pre post log parsed hpre hlog hname
  · rw [addDepartment_extract_eq_loop]
    exact extractLoop_first_match contract _ _ _ pre post log parsed hpre hlog hname
  · rw [addAgency_extract_eq_loop]
    exact extractLoop_first_match contract _ _ _ pre post log parsed hpre hlog hname

/-- Witness for C1 at concrete inputs: an unrelated event precedes the match,
and a further entry follows it. -/
theorem claim_C1_first_match_extraction_witness :
    submitProposal.extractTokenId demoInterface
      [demoLogOther, demoLogSub, demoLogSubZero] = .num 7 ∧
    addDepartment.extractDepartmentAddress demoInterface
      [demoLogOther, demoLogDept, demoLogSub] = .str "0xD1" ∧
    addAgency.extractAgencyAddress demoInterface
      [demoLogOther, demoLogAgency, demoLogSub] = .str "0xA1" := by
  refine ⟨?_, ?_, ?_⟩
  · exact (claim_C1_first_match_extraction demoInterface [demoLogOther] [demoLogSubZero]
      demoLogSub _ rfl).1 rfl (by decide)
  · exact (claim_C1_first_match_extraction demoInterface [demoLogOther] [demoLogSub]
      demoLogDept _ rfl).2.1 rfl (by decide)
  · exact (claim_C1_first_match_extraction demoInterface [demoLogOther] [demoLogSub]
      demoLogAgency _ rfl).2.2 rfl (by decide)

/-- C2: a decode failure on a log entry that does not belong to the target
event is non-fatal — the extraction loops in `submitProposal` and
`addRegularDepartment` skip undecodable entries and continue, so the returned
value is unchanged by inserting any number of undecodable log entries
anywhere, in particular before the first matching one. -/
theorem claim_C2_undecodable_entries_skipped
    (contract : Interface) (a junk b : List Log)
    (hjunk : ∀ l ∈ junk, contract l = none) :
    submitProposal.extractTokenId contract (a ++ junk ++ b) =
      submitProposal.extractTokenId contract (a ++ b) ∧
    addRegularDepartment.extractDepartmentAddress contract (a ++ junk ++ b) =
      addRegularDepartment.extractDepartmentAddress contract (a ++ b) := by
  constructor
  · rw [submitProposal_extractTokenId_eq_loop, submitProposal_extractTokenId_eq_loop]
    exact extractLoop_insert_undecodable contract _ _ _ a junk b hjunk
  · rw [addRegularDepartment_extract_eq_loop, addRegularDepartment_extract_eq_loop]
    exact extractLoop_insert_undecodable contract _ _ _ a junk b hjunk

/-- Witness for C2 at concrete inputs: two undecodable entries inserted before
the matching entry do not change either result. -/
theorem claim_C2_undecodable_entries_skipped_witness :
    submitProposal.extractTokenId demoInterface
      ([demoLogOther] ++ [demoLogJunk, demoLogJunk] ++ [demoLogSub, demoLogDept]) =
      submitProposal.extractTokenId demoInterface
        ([demoLogOther] ++ [demoLogSub, demoLogDept]) ∧
    addRegularDepartment.extractDepartmentAddress demoInterface
      ([demoLogOther] ++ [demoLogJunk, demoLogJunk] ++ [demoLogSub, demoLogDept]) =
      addRegularDepartment.extractDepartmentAddress demoInterface
        ([demoLogOther] ++ [demoLogSub, demoLogDept]) :=
  claim_C2_undecodable_entries_skipped demoInterface [demoLogOther]
    [demoLogJunk, demoLogJunk] _ (by decide)

/-- C6: the extraction loops repeated verbatim in `addDepartment` and
`addRegularDepartment` (both scanning for DepartmentAdded and reading
`args.deptContract || args[1]`) are extensionally equal — for every interface
and log list they produce the same department address. -/
theorem claim_C6_addDepartment_loops_agree (contract : Interface) (logs : List Log) :
    addDepartment.extractDepartmentAddress contract logs =
      addRegularDepartment.extractDepartmentAddress contract logs := by
  rw [addDepartment_extract_eq_loop, addRegularDepartment_extract_eq_loop]

/-- C9: when no log entry decodes to the target event, the mutation wrappers
still return normally with a sentinel in place of the extracted value:
`submitProposal` yields tokenId 0, `addDepartment` yields the empty string,
`addAgency` yields the empty string; and (final conjunct) a receipt with no
matching event is indistinguishable from one whose matching event carries the
sentinel value. -/
theorem claim_C9_sentinel_on_no_match :
    (∀ (contract : Interface) (logs : List Log),
      (∀ l ∈ logs, matchesEvent contract "ProposalSubmitted" l = false) →
      submitProposal.extractTokenId contract logs = .num 0) ∧
    (∀ (contract : Interface) (logs : List Log),
      (∀ l ∈ logs, matchesEvent contract "DepartmentAdded" l = false) →
      addDepartment.extractDepartmentAddress contract logs = .str "") ∧
    (∀ (contract : Interface) (logs : List Log),
      (∀ l ∈ logs, matchesEvent contract "AgencyAdded" l = false) →
      addAgency.extractAgencyAddress contract logs = .str "") ∧
    (submitProposal.extractTokenId demoInterface [] =
       submitProposal.extractTokenId demoInterface [demoLogSubZero] ∧
     matchesEvent demoInterface "ProposalSubmitted" demoLogSubZero = true) := by
  refine ⟨fun c ls h => ?_, fun c ls h => ?_, fun c ls h => ?_, by decide, by decide⟩
  · rw [submitProposal_extractTokenId_eq_loop]
    exact extractLoop_no_match c _ _ _ ls h
  · rw [addDepartment_extract_eq_loop]
    exact extractLoop_no_match c _ _ _ ls h
  · rw [addAgency_extract_eq_loop]
    exact extractLoop_no_match c _ _ _ ls h

/-- Witness for C9 at concrete inputs: a receipt whose only entries are an
unrelated event and an undecodable entry produces the three sentinels. -/
theorem claim_C9_sentinel_on_no_match_witness :
    submitProposal.extractTokenId demoInterface [demoLogOther, demoLogJunk] = .num 0 ∧
    addDepartment.extractDepartmentAddress demoInterface [demoLogOther, demoLogJunk] = .str "" ∧
    addAgency.extractAgencyAddress demoInterface [demoLogOther, demoLogJunk] = .str "" :=
  ⟨claim_C9_sentinel_on_no_match.1 demoInterface [demoLogOther, demoLogJunk] (by decide),
   claim_C9_sentinel_on_no_match.2.1 demoInterface [demoLogOther, demoLogJunk] (by decide),
   claim_C9_sentinel_on_no_match.2.2.1 demoInterface [demoLogOther, demoLogJunk] (by decide)⟩

/-- C5: for every transaction response, `waitForTransaction` waits for the
mined receipt and returns a record whose txHash, blockNumber, gasUsed and logs
are copied from that receipt, whose success field is true iff the receipt
status equals 1, and it throws exactly when waiting yields no receipt. -/
theorem claim_C5_waitForTransaction_spec (txWait : Option Receipt) :
    (txWait = none → waitForTransaction txWait = .error .noReceipt) ∧
    (∀ receipt, txWait = some receipt →
      ∃ result, waitForTransaction txWait = .ok result ∧
        result.txHash = receipt.hash ∧
        result.blockNumber = receipt.blockNumber ∧
        result.gasUsed = receipt.gasUsed ∧
        result.logs = receipt.logs ∧
        (result.success = true ↔ receipt.status = some 1)) := by
  constructor
  · intro h; rw [h]; rfl
  · intro receipt h
    subst h
    refine ⟨_, rfl, rfl, rfl, rfl, rfl, ?_⟩
    simp [waitForTransaction]

/-- Witness for C5 at concrete inputs: the no-receipt case throws, a status-1
receipt succeeds with its fields copied. -/
theorem claim_C5_waitForTransaction_spec_witness :
    waitForTransaction none = .error .noReceipt ∧
    ∃ result, waitForTransaction (some demoReceipt) = .ok result ∧
      result.txHash = demoReceipt.hash ∧
      result.blockNumber = demoReceipt.blockNumber ∧
      result.gasUsed = demoReceipt.gasUsed ∧
      result.logs = demoReceipt.logs ∧
      (result.success = true ↔ demoReceipt.status = some 1) :=
  ⟨(claim_C5_waitForTransaction_spec none).1 rfl,
   (claim_C5_waitForTransaction_spec (some demoReceipt)).2 demoReceipt rfl⟩

/-- C8: `configure` validates before mutating — if chainMode is not testnet or
mainnet, or apiKey is empty, it throws and leaves the stored configuration and
cached provider unchanged; otherwise it replaces the stored configuration with
exactly the given chainMode, apiKey and privateKey and resets the cached
provider to null. -/
theorem claim_C8_configure_validates_before_mutating
    (c : SDKConfigInput) (st : SDKState) :
    (c.chainMode ∉ ["testnet", "mainnet"] ∨ c.apiKey = "" →
      (∃ e, configure c st = (st, .error e))) ∧
    (c.chainMode ∈ ["testnet", "mainnet"] → c.apiKey ≠ "" →
      configure c st =
        ({ config := some { chainMode := c.chainMode, apiKey := c.apiKey,
                            privateKey := c.privateKey }
           provider := none },
         .ok ())) := by
  constructor
  · rintro (hmode | hkey)
    · refine ⟨.invalidChainMode, ?_⟩
      rw [configure, if_pos (Or.inr hmode)]
    · by_cases hmode : c.chainMode = "" ∨ c.chainMode ∉ ["testnet", "mainnet"]
      · exact ⟨.invalidChainMode, by rw [configure, if_pos hmode]⟩
      · exact ⟨.missingApiKey, by rw [configure, if_neg hmode, if_pos hkey]⟩
  · intro hmode hkey
    have h1 : ¬(c.chainMode = "" ∨ c.chainMode ∉ ["testnet", "mainnet"]) := by
      push_neg
      refine ⟨?_, hmode⟩
      intro h
      rw [h] at hmode
      simp at hmode
    rw [configure, if_neg h1, if_neg hkey]

/-- Witness for C8 at concrete inputs: a bogus chainMode leaves the state
untouched, a valid input installs exactly the given configuration with a null
provider. -/
theorem claim_C8_configure_validates_before_mutating_witness :
    (∃ e, configure { chainMode := "devnet", apiKey := "k", privateKey := none }
        { config := none, provider := some { rpcUrl := "u", chainId := 80002 } } =
      ({ config := none, provider := some { rpcUrl := "u", chainId := 80002 } },
       .error e)) ∧
    configure { chainMode := "testnet", apiKey := "k", privateKey := some "pk" }
        { config := none, provider := some { rpcUrl := "u", chainId := 80002 } } =
      ({ config := some { chainMode := "testnet", apiKey := "k",
                          privateKey := some "pk" },
         provider := none },
       .ok ()) :=
  ⟨(claim_C8_configure_validates_before_mutating
      { chainMode := "devnet", apiKey := "k", privateKey := none }
      { config := none, provider := some { rpcUrl := "u", chainId := 80002 } }).1
      (Or.inl (by decide)),
   (claim_C8_configure_validates_before_mutating
      { chainMode := "testnet", apiKey := "k", privateKey := some "pk" }
      { config := none, provider := some { rpcUrl := "u", chainId := 80002 } }).2
      (by decide) (by decide)⟩

/-- C3 counterexample: it is false that every function exported by the index
module builds a state-changing contract call or performs a read-only contract
query — `configure`, an export singled out by the claim, only mutates the
local configuration state. -/
theorem claim_C3_counterexample :
    (sdkExports.all fun p =>
      p.2 == ExportKind.stateChangingCall || p.2 == ExportKind.readOnlyQuery) = false ∧
    sdkExports.contains ("configure", ExportKind.localConfiguration) = true ∧
    ExportKind.localConfiguration ≠ ExportKind.stateChangingCall ∧
    ExportKind.localConfiguration ≠ ExportKind.readOnlyQuery := by
  refine ⟨rfl, rfl, by decide, by decide⟩

/-- C3 (amended): every function exported by the index module builds and
submits a state-changing contract call or performs a read-only contract
query, except the ten configuration and pure-utility helpers (`configure`,
`getConfig`, `getChainMode`, `isTestnet`, `isMainnet`,
`setContractAddresses`, `getPhaseName`, `getStatusName`, `stringToBytes32`,
`bytes32ToString`), which touch no contract at all. -/
theorem claim_C3_exports_classified :
    (sdkExports.all fun p =>
      p.2 == ExportKind.stateChangingCall || p.2 == ExportKind.readOnlyQuery ||
        nonContractExports.contains p.1) = true ∧
    (sdkExports.filter fun p =>
      !(p.2 == ExportKind.stateChangingCall || p.2 == ExportKind.readOnlyQuery)).length = 10 := by
  constructor <;> rfl

/-! ### UTF-8 roundtrip lemmas -/

theorem utf8EncodeCodePoint_length_pos (v : Nat) :
    1 ≤ (utf8EncodeCodePoint v).length := by
  unfold utf8EncodeCodePoint
  split
  · simp
  · split
    · simp
    · split <;> simp

theorem length_le_utf8Bytes_length (s : List Char) :
    s.length ≤ (utf8Bytes s).length := by
  induction s with
  | nil => simp [utf8Bytes]
  | cons c cs ih =>
    have := utf8EncodeCodePoint_length_pos c.toNat
    simp only [utf8Bytes, List.length_cons, List.length_append]
    omega

theorem utf8Bytes_eq_nil_iff (s : List Char) : utf8Bytes s = [] ↔ s = [] := by
  cases s with
  | nil => simp [utf8Bytes]
  | cons c cs =>
    simp only [utf8Bytes, List.append_eq_nil]
    have := utf8EncodeCodePoint_length_pos c.toNat
    constructor
    · rintro ⟨h, -⟩
      rw [h] at this
      simp at this
    · intro h
      exact absurd h (List.cons_ne_nil c cs)

theorem utf8DecodeOne_length_le {b v : Nat} {rest rest1 : List Nat}
    (h : utf8DecodeOne b rest = some (v, rest1)) : rest1.length ≤ rest.length := by
  rcases rest with _ | ⟨b1, _ | ⟨b2, _ | ⟨b3, rest3⟩⟩⟩ <;>
    simp only [utf8DecodeOne] at h <;>
    split_ifs at h <;>
    simp_all <;>
    omega

theorem utf8DecodeLoop_fuel (fuel1 fuel2 : Nat) (l : List Nat)
    (h1 : l.length ≤ fuel1) (h2 : l.length ≤ fuel2) :
    utf8DecodeLoop fuel1 l = utf8DecodeLoop fuel2 l := by
  induction fuel1 generalizing fuel2 l with
  | zero =>
    have hl : l = [] := by cases l <;> simp_all
    subst hl
    cases fuel2 <;> rfl
  | succ f ih =>
    cases l with
    | nil => cases fuel2 <;> rfl
    | cons b rest =>
      cases fuel2 with
      | zero => simp at h2
      | succ f2 =>
        simp only [utf8DecodeLoop]
        cases hone : utf8DecodeOne b rest with
        | none => rfl
        | some p =>
          obtain ⟨v, rest1⟩ := p
          have hle := utf8DecodeOne_length_le hone
          simp only [List.length_cons] at h1 h2
          have heq := ih f2 rest1 (by omega) (by omega)
          simp [heq]

theorem utf8DecodeOne_encodeCodePoint (c : Char) (rest : List Nat) :
    ∃ b tail, utf8EncodeCodePoint c.toNat = b :: tail ∧
      utf8DecodeOne b (tail ++ rest) = some (c.toNat, rest) := by
  have hvalid : c.toNat < 0xD800 ∨ (0xDFFF < c.toNat ∧ c.toNat < 0x110000) := c.valid
  set v := c.toNat with hv
  by_cases h1 : v < 0x80
  · refine ⟨v, [], by rw [utf8EncodeCodePoint, if_pos h1], ?_⟩
    simp only [List.nil_append]
    unfold utf8DecodeOne
    rw [if_pos h1]
  · by_cases h2 : v < 0x800
    · refine ⟨0xC0 + v / 64, [0x80 + v % 64],
        by rw [utf8EncodeCodePoint, if_neg h1, if_pos h2], ?_⟩
      have hc1 : ¬(0xC0 + v / 64 < 0x80) := by omega
      have hc2 : ¬(0xC0 + v / 64 < 0xC0) := by omega
      have hc3 : 0xC0 + v / 64 < 0xE0 := by omega
      have hval : utf8Val2 (0xC0 + v / 64) (0x80 + v % 64) = v := by
        simp only [utf8Val2]
        omega
      have hok : utf8Ok2 (0xC0 + v / 64) (0x80 + v % 64) = true := by
        simp only [utf8Ok2, utf8ContinuationByte, hval, Bool.and_eq_true, decide_eq_true_eq]
        omega
      simp only [List.cons_append, List.nil_append]
      unfold utf8DecodeOne
      rw [if_neg hc1, if_neg hc2, if_pos hc3]
      simp only [hok, if_true, hval]
    · by_cases h3 : v < 0x10000
      · refine ⟨0xE0 + v / 4096, [0x80 + v / 64 % 64, 0x80 + v % 64],
          by rw [utf8EncodeCodePoint, if_neg h1, if_neg h2, if_pos h3], ?_⟩
        have hc1 : ¬(0xE0 + v / 4096 < 0x80) := by omega
        have hc2 : ¬(0xE0 + v / 4096 < 0xC0) := by omega
        have hc3 : ¬(0xE0 + v / 4096 < 0xE0) := by omega
        have hc4 : 0xE0 + v / 4096 < 0xF0 := by omega
        have hval : utf8Val3 (0xE0 + v / 4096) (0x80 + v / 64 % 64) (0x80 + v % 64) = v := by
          simp only [utf8Val3]
          omega
        have hok : utf8Ok3 (0xE0 + v / 4096) (0x80 + v / 64 % 64) (0x80 + v % 64) = true := by
          simp only [utf8Ok3, utf8ContinuationByte, hval, Bool.and_eq_true,
            decide_eq_true_eq, Bool.not_eq_true', Bool.and_eq_false_iff,
            decide_eq_false_iff_not]
          omega
        simp only [List.cons_append, List.nil_append]
        unfold utf8DecodeOne
        rw [if_neg hc1, if_neg hc2, if_neg hc3, if_pos hc4]
        simp only [hok, if_true, hval]
      · have h4 : v < 0x110000 := by omega
        refine ⟨0xF0 + v / 262144, [0x80 + v / 4096 % 64, 0x80 + v / 64 % 64, 0x80 + v % 64],
          by rw [utf8EncodeCodePoint, if_neg h1, if_neg h2, if_neg h3], ?_⟩
        have hc1 : ¬(0xF0 + v / 262144 < 0x80) := by omega
        have hc2 : ¬(0xF0 + v / 262144 < 0xC0) := by omega
        have hc3 : ¬(0xF0 + v / 262144 < 0xE0) := by omega
        have hc4 : ¬(0xF0 + v / 262144 < 0xF0) := by omega
        have hc5 : 0xF0 + v / 262144 < 0xF8 := by omega
        have hval : utf8Val4 (0xF0 + v / 262144) (0x80 + v / 4096 % 64) (0x80 + v / 64 % 64)
            (0x80 + v % 64) = v := by
          simp only [utf8Val4]
          omega
        have hok : utf8Ok4 (0xF0 + v / 262144) (0x80 + v / 4096 % 64) (0x80 + v / 64 % 64)
            (0x80 + v % 64) = true := by
          simp only [utf8Ok4, utf8ContinuationByte, hval, Bool.and_eq_true, decide_eq_true_eq]
          omega
        simp only [List.cons_append, List.nil_append]
        unfold utf8DecodeOne
        rw [if_neg hc1, if_neg hc2, if_neg hc3, if_neg hc4, if_pos hc5]
        simp only [hok, if_true, hval]

theorem utf8DecodeBytes_encodeCodePoint (c : Char) (rest : List Nat) :
    utf8DecodeBytes (utf8EncodeCodePoint c.toNat ++ rest) =
      Option.map (fun cs => c :: cs) (utf8DecodeBytes rest) := by
  obtain ⟨b, tail, henc, hone⟩ := utf8DecodeOne_encodeCodePoint c rest
  have hofn : Char.ofNat c.toNat = c := Char.ofNat_toNat c
  rw [utf8DecodeBytes, utf8DecodeBytes, henc, List.cons_append]
  simp only [List.length_cons]
  simp only [utf8DecodeLoop, hone]
  rw [utf8DecodeLoop_fuel (tail ++ rest).length rest.length rest
    (by simp [List.length_append]) (Nat.le_refl _)]
  simp only [hofn]

theorem utf8DecodeBytes_utf8Bytes (s : List Char) :
    utf8DecodeBytes (utf8Bytes s) = some s := by
  induction s with
  | nil => rfl
  | cons c cs ih =>
    simp only [utf8Bytes]
    rw [utf8DecodeBytes_encodeCodePoint, ih]
    rfl

theorem dropWhile_zero_replicate_append (k : Nat) (l : List Nat) :
    List.dropWhile (· == 0) (List.replicate k 0 ++ l) = List.dropWhile (· == 0) l := by
  induction k with
  | zero => rfl
  | succ k ih =>
    rw [List.replicate_succ, List.cons_append, List.dropWhile_cons_of_pos (by simp)]
    exact ih

theorem dropTrailingZeros_append_replicate (l : List Nat) (k : Nat) :
    dropTrailingZeros (l ++ List.replicate k 0) = dropTrailingZeros l := by
  unfold dropTrailingZeros
  rw [List.reverse_append, List.reverse_replicate, dropWhile_zero_replicate_append]

theorem dropTrailingZeros_of_getLast (l : List Nat) (h : l.getLast? ≠ some 0) :
    dropTrailingZeros l = l := by
  unfold dropTrailingZeros
  cases hrev : l.reverse with
  | nil =>
    have : l = [] := by simpa using congrArg List.reverse hrev
    simp [this]
  | cons b t =>
    have hlast : l.getLast? = some b := by
      rw [← List.head?_reverse, hrev]
      rfl
    have hb : (b == 0) = false := by
      rw [hlast] at h
      simpa using fun hb0 => h (by rw [hb0])
    simp only [List.dropWhile_cons, hb, Bool.false_eq_true, if_false]
    rw [← hrev, List.reverse_reverse]

theorem utf8EncodeCodePoint_getLast_ne_zero (v : Nat) (hv : v ≠ 0) :
    (utf8EncodeCodePoint v).getLast? ≠ some 0 := by
  unfold utf8EncodeCodePoint
  split_ifs <;> simp [List.getLast?] <;> omega

theorem utf8Bytes_getLast_ne_zero (s : List Char) (h : ∀ c ∈ s, c.toNat ≠ 0) :
    (utf8Bytes s).getLast? ≠ some 0 := by
  induction s with
  | nil => simp [utf8Bytes]
  | cons c cs ih =>
    simp only [utf8Bytes, List.getLast?_append]
    cases hlast : (utf8Bytes cs).getLast? with
    | none =>
      simp only [Option.none_or]
      exact utf8EncodeCodePoint_getLast_ne_zero c.toNat (h c (List.mem_cons_self c cs))
    | some x =>
      have hx := ih (fun y hy => h y (List.mem_cons_of_mem c hy))
      rw [hlast] at hx
      simpa using hx

theorem stringToBytes32_error_iff (s : List Char) :
    (∃ e, stringToBytes32 s = .error e) ↔ 31 < (utf8Bytes s).length := by
  by_cases h1 : 31 < s.length
  · have hb : 31 < (utf8Bytes s).length :=
      lt_of_lt_of_le h1 (length_le_utf8Bytes_length s)
    simp [stringToBytes32, h1, hb]
  · by_cases h2 : 31 < (utf8Bytes s).length <;>
      simp [stringToBytes32, encodeBytes32String, h1, h2]

theorem stringToBytes32_roundTrip (s : List Char) (hnull : ∀ c ∈ s, c.toNat ≠ 0)
    (hlen : (utf8Bytes s).length ≤ 31) :
    stringToBytes32 s = .ok (utf8Bytes s ++ List.replicate (32 - (utf8Bytes s).length) 0) ∧
    bytes32ToString (utf8Bytes s ++ List.replicate (32 - (utf8Bytes s).length) 0) = .ok s := by
  have hslen : s.length ≤ 31 := le_trans (length_le_utf8Bytes_length s) hlen
  constructor
  · unfold stringToBytes32 encodeBytes32String
    rw [if_neg (by omega), if_neg (by omega)]
  · unfold bytes32ToString decodeBytes32String
    have hlen32 : (utf8Bytes s ++ List.replicate (32 - (utf8Bytes s).length) 0).length = 32 := by
      simp only [List.length_append, List.length_replicate]
      omega
    rw [if_neg (by simp [hlen32])]
    have hget : (utf8Bytes s ++ List.replicate (32 - (utf8Bytes s).length) 0)[31]?
        = some 0 := by
      rw [List.getElem?_append_right (by omega),
        List.getElem?_replicate_of_lt (by omega)]
    rw [if_neg (by simp [List.get?_eq_getElem?, hget])]
    have htake : (utf8Bytes s ++ List.replicate (32 - (utf8Bytes s).length) 0).take 31 =
        utf8Bytes s ++ List.replicate (31 - (utf8Bytes s).length) 0 := by
      rw [List.take_append_eq_append_take, List.take_of_length_le (by omega),
        List.take_replicate]
      congr 2
      omega
    rw [htake, dropTrailingZeros_append_replicate,
      dropTrailingZeros_of_getLast (utf8Bytes s) (utf8Bytes_getLast_ne_zero s hnull),
      utf8DecodeBytes_utf8Bytes]

/-- C7 counterexample: the claim says `stringToBytes32` throws exactly when
the string length exceeds 31 and round-trips below that; but eleven euro
signs (three UTF-8 bytes each, 33 bytes total) have length 11 ≤ 31, contain
no nulls, and still throw inside `ethers.encodeBytes32String`. -/
theorem claim_C7_counterexample :
    (List.replicate 11 (Char.ofNat 8364)).length ≤ 31 ∧
    (∀ c ∈ List.replicate 11 (Char.ofNat 8364), c.toNat ≠ 0) ∧
    stringToBytes32 (List.replicate 11 (Char.ofNat 8364)) =
      .error .bytes32TooManyBytes := by
  refine ⟨by decide, by decide, ?_⟩
  rfl

/-- C7 (amended): `stringToBytes32` throws exactly when the UTF-8 encoding of
its input exceeds 31 bytes (for strings of more than 31 characters this is
its own guard, and `ethers.encodeBytes32String` also throws on shorter
strings whose encoding is too long); and for every string whose UTF-8
encoding is at most 31 bytes and which contains no null characters,
`bytes32ToString (stringToBytes32 s)` returns `s` — the two conversions are a
round trip. -/
theorem claim_C7_stringToBytes32_roundTrip (s : List Char) :
    ((∃ e, stringToBytes32 s = .error e) ↔ 31 < (utf8Bytes s).length) ∧
    ((∀ c ∈ s, c.toNat ≠ 0) → (utf8Bytes s).length ≤ 31 →
      ∃ b, stringToBytes32 s = .ok b ∧ bytes32ToString b = .ok s) :=
  ⟨stringToBytes32_error_iff s,
   fun hnull hlen =>
     ⟨_, (stringToBytes32_roundTrip s hnull hlen).1,
       (stringToBytes32_roundTrip s hnull hlen).2⟩⟩

/-- Witness for C7 at a concrete input: PS-001 survives the round trip. -/
theorem claim_C7_stringToBytes32_roundTrip_witness :
    ∃ b, stringToBytes32 ('P' :: 'S' :: '-' :: '0' :: '0' :: '1' :: []) = .ok b ∧
      bytes32ToString b = .ok ('P' :: 'S' :: '-' :: '0' :: '0' :: '1' :: []) :=
  (claim_C7_stringToBytes32_roundTrip _).2 (by decide) (by decide)

/-- C4 counterexample: the claim says `submitProposal` (via
`prepareProposalData`) imposes no client-side restriction on the proposal
data fields and never throws on account of their contents; but a
32-character `prexcFpapId` makes `prepareProposalData` throw before any
contract call, and so does the amount string `1.5`, which `BigInt` rejects
even when both string fields fit. -/
theorem claim_C4_counterexample :
    prepareProposalData (List.replicate 32 'a') [] (.big 5) = .error .stringTooLong ∧
    prepareProposalData ['a'] ['b'] (.str "1.5") = .error .invalidBigInt :=
  ⟨rfl, rfl⟩

/-- C4 (amended): the SDK does impose client-side restrictions through
`prepareProposalData` — each of `prexcFpapId` and `uacsObjCode` must fit in a
bytes32 (UTF-8 encoding of at most 31 bytes) and the amount must be
convertible by `BigInt` (a bigint, an integer string literal, or an integral
number) — and it throws before the contract call exactly when one of these
fails; within these bounds it imposes nothing further and never throws,
returning exactly the packed record with zeroed contract-enriched fields.
All remaining validation is left to the contracts. -/
theorem claim_C4_prepareProposalData (p u : List Char) (a : JsAmount) :
    ((∃ e, prepareProposalData p u a = .error e) ↔
      31 < (utf8Bytes p).length ∨ 31 < (utf8Bytes u).length ∨ jsBigInt a = none) ∧
    (∀ bp bu av, stringToBytes32 p = .ok bp → stringToBytes32 u = .ok bu →
      jsBigInt a = some av →
      prepareProposalData p u a = .ok
        { fiscalYear := 0, departmentCode := ZeroHash, agencyCode := ZeroHash,
          prexcFpapId := bp, uacsObjCode := bu, amount := av }) := by
  constructor
  · constructor
    · rintro ⟨e, he⟩
      unfold prepareProposalData at he
      cases hp : stringToBytes32 p with
      | error ep => exact Or.inl ((stringToBytes32_error_iff p).mp ⟨ep, hp⟩)
      | ok bp =>
        rw [hp] at he
        cases hu : stringToBytes32 u with
        | error eu => exact Or.inr (Or.inl ((stringToBytes32_error_iff u).mp ⟨eu, hu⟩))
        | ok bu =>
          rw [hu] at he
          cases ha : jsBigInt a with
          | none => exact Or.inr (Or.inr rfl)
          | some av =>
            rw [ha] at he
            exact absurd he (by simp)
    · rintro (hbig | hbig | hnone)
      · obtain ⟨ep, hep⟩ := (stringToBytes32_error_iff p).mpr hbig
        exact ⟨ep, by unfold prepareProposalData; rw [hep]⟩
      · obtain ⟨eu, heu⟩ := (stringToBytes32_error_iff u).mpr hbig
        cases hp : stringToBytes32 p with
        | error ep => exact ⟨ep, by unfold prepareProposalData; rw [hp]⟩
        | ok bp => exact ⟨eu, by unfold prepareProposalData; rw [hp, heu]⟩
      · cases hp : stringToBytes32 p with
        | error ep => exact ⟨ep, by unfold prepareProposalData; rw [hp]⟩
        | ok bp =>
          cases hu : stringToBytes32 u with
          | error eu => exact ⟨eu, by unfold prepareProposalData; rw [hp, hu]⟩
          | ok bu => exact ⟨.invalidBigInt, by unfold prepareProposalData; rw [hp, hu, hnone]⟩
  · intro bp bu av hbp hbu hav
    unfold prepareProposalData
    rw [hbp, hbu, hav]

/-- Witness for C4 at concrete inputs: one-character fields are packed with
right-padding and the string amount `42` is converted by `BigInt`. -/
theorem claim_C4_prepareProposalData_witness :
    prepareProposalData ['a'] ['b'] (.str "42") = .ok
      { fiscalYear := 0, departmentCode := ZeroHash, agencyCode := ZeroHash,
        prexcFpapId := 97 :: List.replicate 31 0, uacsObjCode := 98 :: List.replicate 31 0,
        amount := 42 } :=
  (claim_C4_prepareProposalData ['a'] ['b'] (.str "42")).2
    (97 :: List.replicate 31 0) (98 :: List.replicate 31 0) 42 rfl rfl rfl
